import Mathlib

/-!
Verification of the zebra bridge core (`server/zclient.go`).

This file shallowly embeds the data model and the pure translator /
damping functions of the bridge between the BGP daemon and the zebra
RIB daemon, and proves or refutes the frozen specification claims
about them.

Modelling conventions:

* Go byte slices (`net.IP`, serialized attribute bytes, protocol name
  strings) are modelled as `List Nat`.
* Go `int` arithmetic is modelled with `Nat` where the quantity is
  provably non-negative in context (the delay calculation takes the
  manager's non-negative penalty), and with `Int` plus explicit
  truncated division (`Int.tdiv`, Go's `/` on `int`) where the signedness
  itself is the property under study (the penalty counter).
* Fallible operations return `Option`.
-/

namespace ZClient

/-- A Go `net.IP`: a byte slice.  Valid addresses have length 4 or 16;
the empty list models the `nil` IP. -/
abbrev IPAddr := List Nat

/-- The 12-byte v4-in-v6 marker used by Go's `net` package
(`v4InV6Prefix`): ten zero bytes followed by `0xff 0xff`. -/
def v4InV6Pfx : List Nat := [0, 0, 0, 0, 0, 0, 0, 0, 0, 0, 255, 255]

/-- Go `net.IP.To4`: a 4-byte address is returned unchanged, a 16-byte
v4-mapped address is shortened to its last 4 bytes, anything else gives
`nil` (modelled `none`). -/
def ipTo4 (ip : IPAddr) : Option IPAddr :=
  if ip.length = 4 then some ip
  else if ip.length = 16 && ip.take 12 == v4InV6Pfx then some (ip.drop 12)
  else none

/-- Go `net.IP.To16`: a 4-byte address is widened to its v4-mapped
16-byte form, a 16-byte address is returned unchanged, anything else
gives `nil` (modelled `none`). -/
def ipTo16 (ip : IPAddr) : Option IPAddr :=
  if ip.length = 4 then some (v4InV6Pfx ++ ip)
  else if ip.length = 16 then some ip
  else none

/-- Canonical form of an address used to model Go's textual rendering:
`net.IP.String` prints a v4-mapped 16-byte address and its 4-byte form
identically, so both map to the 4-byte form; every other byte list
renders injectively and maps to itself.  This is the key under which
the nexthop cache (a Go map keyed by `nexthop.String()`) stores
addresses. -/
def ipKey (ip : IPAddr) : IPAddr :=
  match ipTo4 ip with
  | some b => b
  | none => ip

/-- Go `net.IP.Equal`: semantic equality, identifying a 4-byte address
with its v4-mapped 16-byte form. -/
def ipEqual (ip x : IPAddr) : Bool :=
  ipKey ip == ipKey x

/-- Go `net.ParseIP(ip.String())`: the textual round trip normalizes a
4-byte address to its v4-mapped 16-byte form and keeps a 16-byte
address as is (`ParseIP` always yields the 16-byte representation);
an invalid-length address prints as `?hex`, which `ParseIP` rejects,
giving the `nil` IP. -/
def parseIPString (ip : IPAddr) : IPAddr :=
  (ipTo16 ip).getD []

/-- Go `net.IPv4zero` (`0.0.0.0`) in 4-byte form. -/
def ipv4Zero : IPAddr := [0, 0, 0, 0]

/-- Go `net.IPv6unspecified` (`::`). -/
def ipv6Unspecified : IPAddr := List.replicate 16 0

/-- Go `net.IP.IsUnspecified`: equal to `0.0.0.0` or `::`. -/
def ipIsUnspecified (ip : IPAddr) : Bool :=
  ipEqual ip ipv4Zero || ipEqual ip ipv6Unspecified

/-- Go `net.ParseIP("127.0.0.1")`: the v4-mapped 16-byte loopback, as the
self-route-withdraw branch of `newIPRouteBody` builds it. -/
def parsedLoopback4 : IPAddr := v4InV6Pfx ++ [127, 0, 0, 1]

/-- Go `net.ParseIP("::1")`: the IPv6 loopback. -/
def parsedLoopback6 : IPAddr := List.replicate 15 0 ++ [1]

/-! ## Delay calculation (`nexthopTrackingManager.calculateDelay`) -/

/-- The `for penalty > 950` loop body of `calculateDelay`: add 8 to the
delay and halve the penalty until the penalty falls to the threshold. -/
def delayLoop (delay penalty : Nat) : Nat :=
  if h : 950 < penalty then delayLoop (delay + 8) (penalty / 2) else delay
termination_by penalty
decreasing_by
  exact Nat.div_lt_self (by omega) (by omega)

/-- Go `nexthopTrackingManager.calculateDelay`.  `mdelay` is the manager's
configured base delay (`m.delay`); the penalty is non-negative (see the
penalty-counter invariant), so it is taken as a `Nat`. -/
def calculateDelay (mdelay penalty : Nat) : Nat :=
  if penalty ≤ 950 then mdelay
  else delayLoop 8 penalty

/-- Number of iterations the `calculateDelay` loop performs: halvings
of the penalty until it is at most 950. -/
def halvings (penalty : Nat) : Nat :=
  if h : 950 < penalty then halvings (penalty / 2) + 1 else 0
termination_by penalty
decreasing_by
  exact Nat.div_lt_self (by omega) (by omega)

theorem delayLoop_eq_halvings (p : Nat) : ∀ d, delayLoop d p = d + 8 * halvings p := by
  induction p using Nat.strong_induction_on with
  | _ p ih =>
    intro d
    unfold delayLoop halvings
    by_cases h : 950 < p
    · rw [dif_pos h, dif_pos h, ih (p / 2) (Nat.div_lt_self (by omega) (by omega)) (d + 8)]
      ring
    · rw [dif_neg h, dif_neg h]
      omega

theorem halvings_unfold_pos {p : Nat} (h : 950 < p) : halvings p = halvings (p / 2) + 1 := by
  rw [halvings, dif_pos h]

theorem halvings_le (p : Nat) : p / 2 ^ halvings p ≤ 950 := by
  induction p using Nat.strong_induction_on with
  | _ p ih =>
    unfold halvings
    by_cases h : 950 < p
    · rw [dif_pos h]
      have h2 := ih (p / 2) (Nat.div_lt_self (by omega) (by omega))
      calc p / 2 ^ (halvings (p / 2) + 1) = p / 2 / 2 ^ halvings (p / 2) := by
            rw [Nat.div_div_eq_div_mul, pow_succ, Nat.mul_comm]
        _ ≤ 950 := h2
    · rw [dif_neg h]
      simpa using by omega

theorem halvings_min (p : Nat) : ∀ j < halvings p, 950 < p / 2 ^ j := by
  induction p using Nat.strong_induction_on with
  | _ p ih =>
    intro j hj
    unfold halvings at hj
    by_cases h : 950 < p
    · rw [dif_pos h] at hj
      match j with
      | 0 => simpa using h
      | j + 1 =>
        have h2 := ih (p / 2) (Nat.div_lt_self (by omega) (by omega)) j (by omega)
        calc 950 < p / 2 / 2 ^ j := h2
          _ = p / 2 ^ (j + 1) := by rw [Nat.div_div_eq_div_mul, pow_succ, Nat.mul_comm]
    · rw [dif_neg h] at hj
      omega

theorem halvings_mono {p q : Nat} (hpq : p ≤ q) : halvings p ≤ halvings q := by
  induction p using Nat.strong_induction_on generalizing q with
  | _ p ih =>
    by_cases h : 950 < p
    · have hq : 950 < q := by omega
      rw [halvings_unfold_pos h, halvings_unfold_pos hq]
      have := ih (p / 2) (Nat.div_lt_self (by omega) (by omega)) (Nat.div_le_div_right hpq)
      omega
    · rw [halvings, dif_neg h]
      omega

theorem halvings_pos {p : Nat} (h : 950 < p) : 1 ≤ halvings p := by
  rw [halvings, dif_pos h]
  omega

/-! ## Data model -/

/-- The BGP route families the bridge dispatches on
(`bgp.RF_IPv4_UC`, `RF_IPv4_VPN`, `RF_IPv6_UC`, `RF_IPv6_VPN`); every
other family takes the translators' `default` branch. -/
inductive RouteFamily where
  | ipv4uc
  | ipv4vpn
  | ipv6uc
  | ipv6vpn
  | other
deriving DecidableEq, Repr

/-- The NLRI of a path as the translators observe it: its Go type
determines the route family; it carries the prefix address, the prefix
length, and the path-local identifier.  `nlri.String()` renders as
`[rd:]address/length`, so splitting the string on `/` with limit 2 and
parsing the second part as a decimal `uint8` recovers `plen` (the NLRI
length is itself a `uint8`, hence always in range). -/
structure Nlri where
  family : RouteFamily
  prefixAddr : IPAddr
  plen : Nat
  pathLocalId : Nat
deriving DecidableEq, Repr

/-- The fields of `table.PeerInfo` read by `newIPRouteBody`
(`info.AS`, `info.LocalAS`, `info.MultihopTtl`). -/
structure SourceInfo where
  asn : Nat
  localAS : Nat
  multihopTtl : Nat
deriving DecidableEq, Repr

/-- A `table.Path` restricted to the attributes the bridge core reads.
`nexthop` models `GetNexthop()` (the nil IP `[]` when the path carries
no nexthop attribute); `med` models `GetMed()` (`none` when the MED
attribute is absent, in which case Go's `GetMed` returns an error);
`aspathLen` models `GetAsPathLen()` and `aspathSer` the serialized
bytes of `GetAsPath()` (`none` when the attribute is nil).  `source`
models `GetSource()`; paths created by `createPathFromIPRouteMessage`
carry a nil source in Go, which the egress translator never reads for
them (they are filtered out as external first), so a zero value stands
in there. -/
structure Path where
  nlri : Nlri
  nexthop : IPAddr
  isWithdraw : Bool
  isNexthopInvalid : Bool
  fromExternal : Bool
  med : Option Nat
  aspathLen : Nat
  aspathSer : Option (List Nat)
  communities : List Nat
  source : SourceInfo
deriving DecidableEq, Repr

/-- Go `path.GetRouteFamily()`: determined by the NLRI's Go type. -/
def Path.getRouteFamily (p : Path) : RouteFamily := p.nlri.family

/-- Go `path.Clone(isWithdraw)`: a copy of the path with the given
withdraw flag (attributes are shared with the original). -/
def Path.clone (p : Path) (isWithdraw : Bool) : Path :=
  { p with isWithdraw := isWithdraw }

/-- Go `type pathList []*table.Path`: entries may be nil Go pointers. -/
abbrev PathList := List (Option Path)

/-- Modelled from the spec: the community constant
`bgp.COMMUNITY_REGION_BACKUP` ("fixed community value for backup
region", translated to the REJECT route flag) is declared outside
`src/`; its concrete value is immaterial to every claim, any fixed
constant works. -/
def COMMUNITY_REGION_BACKUP : Nat := 4294901761

/-- The zebra route flags assembled by `newIPRouteBody`
(`FLAG_IBGP`, `FLAG_INTERNAL`, `FLAG_REJECT`), as a bitset. -/
structure RouteFlags where
  ibgp : Bool
  internal : Bool
  reject : Bool
deriving DecidableEq, Repr

/-- The zebra message-flag bitset over
{`MESSAGE_NEXTHOP`, `MESSAGE_METRIC`, `MESSAGE_ASPATH`,
`MESSAGE_PATH_ID`}. -/
structure MessageFlags where
  nexthop : Bool
  metric : Bool
  aspath : Bool
  pathId : Bool
deriving DecidableEq, Repr

/-- Go `zebra.IPRouteBody` as built by `newIPRouteBody` (`Type` is always
`ROUTE_BGP` and `SAFI` always `SAFI_UNICAST`, so they are omitted). -/
structure IPRouteBody where
  flags : RouteFlags
  message : MessageFlags
  prefixAddr : IPAddr
  prefixLength : Nat
  nexthops : List IPAddr
  metric : Nat
  aux : List Nat
  pathId : Nat
deriving DecidableEq, Repr

/-- A `zebra.RegisteredNexthop` entry: address family
(`syscall.AF_INET = 2` / `AF_INET6 = 10`) and address bytes. -/
structure RegisteredNexthop where
  family : Nat
  prefixAddr : IPAddr
deriving DecidableEq, Repr

/-- Go `syscall.AF_INET`. -/
def AF_INET : Nat := 2

/-- Go `syscall.AF_INET6`. -/
def AF_INET6 : Nat := 10

/-- Go `zebra.NexthopRegisterBody`. -/
structure NexthopRegisterBody where
  nexthops : List RegisteredNexthop
deriving DecidableEq, Repr

/-! ## Nexthop cache (`nexthopTrackingManager.nexthopCache`)

A Go `map[string]struct{}` keyed by `nexthop.String()`, modelled as a
list of canonical keys (`ipKey`). -/

/-- Go `m.isRegisteredNexthop`. -/
def isRegisteredNexthop (cache : List IPAddr) (nexthop : IPAddr) : Bool :=
  cache.contains (ipKey nexthop)

/-- Go `m.registerNexthop`: insert the key if absent. -/
def registerNexthop (cache : List IPAddr) (nexthop : IPAddr) : List IPAddr :=
  if cache.contains (ipKey nexthop) then cache else cache ++ [ipKey nexthop]

/-- Go `m.unregisterNexthop`: delete the key. -/
def unregisterNexthop (cache : List IPAddr) (nexthop : IPAddr) : List IPAddr :=
  cache.filter (fun k => !(k == ipKey nexthop))

/-! ## Translators -/

/-- Go `filterOutExternalPath`: drop nil paths and paths sourced from the
RIB daemon (`IsFromExternal`). -/
def filterOutExternalPath (paths : PathList) : List Path :=
  paths.filterMap (fun op =>
    match op with
    | none => none
    | some p => if p.fromExternal then none else some p)

/-- Go `nexthopTrackingManager.filterPathToRegister`: drop nil paths,
externally sourced paths, withdraw paths, paths with an invalidated
nexthop, and paths whose nexthop is already registered or
unspecified. -/
def filterPathToRegister (cache : List IPAddr) (paths : PathList) : List Path :=
  paths.filterMap (fun op =>
    match op with
    | none => none
    | some p =>
      if p.fromExternal then none
      else if p.isWithdraw || p.isNexthopInvalid then none
      else if isRegisteredNexthop cache p.nexthop || ipIsUnspecified p.nexthop then none
      else some p)

/-- The per-family prefix/nexthop dispatch of `newIPRouteBody` (its
`switch path.GetRouteFamily()`): yields the prefix in family width and
the nexthop list (each entry the path's nexthop in family width, or the
parsed loopback when `selfRouteWithdraw`; `nil` conversions are
skipped); `none` for an unsupported family. -/
def routeDispatch (paths : List Path) (path : Path) (selfRouteWithdraw : Bool) :
    Option (IPAddr × List IPAddr) :=
  match path.getRouteFamily with
  | .ipv4uc | .ipv4vpn =>
    some ((ipTo4 path.nlri.prefixAddr).getD [],
      paths.filterMap (fun p =>
        if selfRouteWithdraw then ipTo4 parsedLoopback4 else ipTo4 p.nexthop))
  | .ipv6uc | .ipv6vpn =>
    some ((ipTo16 path.nlri.prefixAddr).getD [],
      paths.filterMap (fun p =>
        if selfRouteWithdraw then ipTo16 parsedLoopback6 else ipTo16 p.nexthop))
  | .other => none

/-- The flags bitset assembled by `newIPRouteBody`: iBGP + internal
when the source AS equals the local AS, internal alone when the
multihop TTL is positive, and reject when the path carries the
backup-region community. -/
def routeFlagsOf (path : Path) : RouteFlags :=
  let flags0 : RouteFlags :=
    if path.source.asn = path.source.localAS then ⟨true, true, false⟩
    else if 0 < path.source.multihopTtl then ⟨false, true, false⟩
    else ⟨false, false, false⟩
  { flags0 with
    reject := flags0.reject || path.communities.contains COMMUNITY_REGION_BACKUP }

/-- The AS-path `Aux` bytes of `newIPRouteBody` together with the
`MESSAGE_ASPATH` flag: when the path has a nonempty AS path whose
serialization is longer than 3 bytes, the first 3 bytes (the attribute
envelope) are stripped and the flag is set. -/
def routeAux (path : Path) : List Nat × Bool :=
  if 0 < path.aspathLen then
    match path.aspathSer with
    | some bytes => if 3 < bytes.length then (bytes.drop 3, true) else (bytes, false)
    | none => ([], false)
  else ([], false)

/-- The `zebra.IPRouteBody` literal that `newIPRouteBody` returns:
`ROUTE_BGP`, `SAFI_UNICAST`, the assembled flag bitsets, and the
prefix, nexthops, metric, aux bytes and path id. -/
def mkIPRouteBody (path : Path) (prefixAddr : IPAddr) (nexthops : List IPAddr)
    (msgPathId : Bool) (pathId : Nat) : IPRouteBody :=
  { flags := routeFlagsOf path
    message := ⟨decide (0 < nexthops.length), path.med.isSome, (routeAux path).2, msgPathId⟩
    prefixAddr := prefixAddr
    prefixLength := path.nlri.plen
    nexthops := nexthops
    metric := path.med.getD 0
    aux := (routeAux path).1
    pathId := pathId }

/-- Go `newIPRouteBody(dst, selfRouteWithdraw)`: build a zebra route
message from a path batch; returns `(nil, false)` when every path is
external, the family is unsupported, or a default route carries a zero
path-local identifier; otherwise the message together with the
representative's withdraw flag. -/
def newIPRouteBody (dst : PathList) (selfRouteWithdraw : Bool) :
    Option IPRouteBody × Bool :=
  match filterOutExternalPath dst with
  | [] => (none, false)
  | path :: rest =>
    match routeDispatch (path :: rest) path selfRouteWithdraw with
    | none => (none, false)
    | some (prefixAddr, nexthops) =>
      if path.nlri.plen = 0 then
        if path.nlri.pathLocalId = 0 then (none, false)
        else
          (some (mkIPRouteBody path prefixAddr nexthops true path.nlri.pathLocalId),
           path.isWithdraw)
      else
        (some (mkIPRouteBody path prefixAddr nexthops false 0), path.isWithdraw)

/-- The register-entry loop of `newNexthopRegisterBody`: for each path,
emit a `{family, nexthop}` entry sized per the representative's family
(unsupported families `continue`, skipping both the entry and the cache
insertion) and insert the nexthop into the cache. -/
def registerLoop (family : RouteFamily) (paths : List Path) (cache : List IPAddr) :
    List RegisteredNexthop × List IPAddr :=
  paths.foldl
    (fun acc p =>
      match family with
      | .ipv4uc | .ipv4vpn =>
        (acc.1 ++ [⟨AF_INET, (ipTo4 p.nexthop).getD []⟩], registerNexthop acc.2 p.nexthop)
      | .ipv6uc | .ipv6vpn =>
        (acc.1 ++ [⟨AF_INET6, (ipTo16 p.nexthop).getD []⟩], registerNexthop acc.2 p.nexthop)
      | .other => acc)
    ([], cache)

/-- Go `newNexthopRegisterBody(dst, nhtManager)`: build a zebra
nexthop-register message.  The manager is `none` when NHT is disabled
(a nil `nhtManager`); otherwise it carries the nexthop cache, whose
updated value is returned as the third component (the Go function
mutates `nhtManager.nexthopCache` in place). -/
def newNexthopRegisterBody (dst : PathList) (nhtManager : Option (List IPAddr)) :
    Option NexthopRegisterBody × Bool × Option (List IPAddr) :=
  match nhtManager with
  | none => (none, false, none)
  | some cache =>
    match filterPathToRegister cache dst with
    | [] => (none, false, some cache)
    | path :: rest =>
      if path.isWithdraw then
        -- NEXTHOP_UNREGISTER is produced elsewhere; nothing to do here.
        (none, true, some cache)
      else
        let nexthops := registerLoop path.getRouteFamily (path :: rest) cache
        if nexthops.1.length = 0 then (none, path.isWithdraw, some nexthops.2)
        else (some ⟨nexthops.1⟩, path.isWithdraw, some nexthops.2)

/-! ## Ingress: route message to path -/

/-- The inbound `zebra.Message` with an `IPRouteBody`, as
`createPathFromIPRouteMessage` observes it.  `family` models
`body.RouteFamily()` and `isWithdraw` models `body.IsWithdraw()`, both
derived in the zebra package from the message header's command
(IPV4/IPV6 ROUTE ADD/DELETE). -/
structure ZIPRouteMessage where
  family : RouteFamily
  isWithdraw : Bool
  prefixAddr : IPAddr
  prefixLength : Nat
  nexthops : List IPAddr
  metric : Nat
deriving DecidableEq, Repr

/-- Go `createPathFromIPRouteMessage`: build a BGP path from an inbound
zebra route message.  Only IPv4 and IPv6 unicast are supported; other
families are dropped (`none`).  The NLRI stores
`ParseIP(body.Prefix.String())` (`NewIPAddrPrefix` /
`NewIPv6AddrPrefix` parse the textual prefix); the nexthop attribute
stores `ParseIP(body.Nexthops[0].String())` — for IPv4 as a direct
NEXTHOP attribute only when a nexthop is present, for IPv6 inside
MP_REACH_NLRI with the empty string (parsing to the nil IP) when none
is present.  Origin is IGP, MED copies the metric, the withdraw flag
mirrors the message, and the path is marked from-external
(`SetIsFromExternal(true)`).  `table.NewPath` is called with a nil
source; see `Path.source`. -/
def createPathFromIPRouteMessage (m : ZIPRouteMessage) : Option Path :=
  match m.family with
  | .ipv4uc =>
    some { nlri := ⟨.ipv4uc, parseIPString m.prefixAddr, m.prefixLength, 0⟩
           nexthop :=
             match m.nexthops with
             | [] => []
             | nh :: _ => parseIPString nh
           isWithdraw := m.isWithdraw
           isNexthopInvalid := false
           fromExternal := true
           med := some m.metric
           aspathLen := 0
           aspathSer := none
           communities := []
           source := ⟨0, 0, 0⟩ }
  | .ipv6uc =>
    some { nlri := ⟨.ipv6uc, parseIPString m.prefixAddr, m.prefixLength, 0⟩
           nexthop :=
             match m.nexthops with
             | [] => []
             | nh :: _ => parseIPString nh
           isWithdraw := m.isWithdraw
           isNexthopInvalid := false
           fromExternal := true
           med := some m.metric
           aspathLen := 0
           aspathSer := none
           communities := []
           source := ⟨0, 0, 0⟩ }
  | _ => none

/-! ## Nexthop updates -/

/-- Go `zebra.NexthopUpdateBody`: the address family (`AF_INET` /
`AF_INET6`), the tracked address, the metric, and the reachable
nexthops (empty when the address became unreachable). -/
structure NexthopUpdateBody where
  family : Nat
  prefixAddr : IPAddr
  metric : Nat
  nexthops : List IPAddr
deriving DecidableEq, Repr

/-- Go `rfListFromNexthopUpdateBody`. -/
def rfListFromNexthopUpdateBody (body : NexthopUpdateBody) : List RouteFamily :=
  if body.family = AF_INET then [.ipv4uc, .ipv4vpn]
  else if body.family = AF_INET6 then [.ipv6uc, .ipv6vpn]
  else []

/-- The transient `table.TableManager` built by the bridge loop for a
nexthop update: the only operation the translator invokes is
`GetPathListWithNexthop(GLOBAL_RIB_NAME, rfList, prefix)`, modelled as
an abstract RIB query. -/
structure TableManager where
  getPathListWithNexthop : List RouteFamily → IPAddr → List Path

/-- Go `createPathListFromNexthopUpdateMessage`: clone each path bound to
the updated nexthop, invalidating the clones when the update carries no
nexthop and otherwise validating them and copying the metric into MED
(`SetMed(metric, true)`); when no path is bound, produce a
nexthop-unregister body and remove the address from the cache.  The
third component is the returned `error`, the fourth the updated cache
(the Go function mutates `nhtManager.nexthopCache` in place). -/
def createPathListFromNexthopUpdateMessage (body : NexthopUpdateBody)
    (manager : TableManager) (cache : List IPAddr) :
    List Path × Option NexthopRegisterBody × Option Nat × List IPAddr :=
  let isNexthopInvalid : Bool := decide (body.nexthops.length = 0)
  let paths := manager.getPathListWithNexthop (rfListFromNexthopUpdateBody body) body.prefixAddr
  let unreg : Option NexthopRegisterBody × List IPAddr :=
    if paths.length = 0 then
      (some ⟨[⟨body.family, body.prefixAddr⟩]⟩, unregisterNexthop cache body.prefixAddr)
    else (none, cache)
  let updatedPathList := paths.map (fun p =>
    let newPath := p.clone false
    if isNexthopInvalid then
      { newPath with isNexthopInvalid := true }
    else
      { newPath with isNexthopInvalid := false, med := some body.metric })
  (updatedPathList, unreg.1, none, unreg.2)

/-- The outcome of the bridge loop's `NexthopUpdateBody` arm
(`zebraClient.loop`): log the failure when
`createPathListFromNexthopUpdateMessage` errors, otherwise schedule the
updated paths through NHT (and send the unregister body when present). -/
inductive NexthopUpdateOutcome where
  | logFailure
  | schedule (paths : List Path) (unreg : Option NexthopRegisterBody)
deriving Repr

/-- The `case *zebra.NexthopUpdateBody` arm of the bridge loop. -/
def zebraLoopHandleNexthopUpdate (body : NexthopUpdateBody) (manager : TableManager)
    (cache : List IPAddr) : NexthopUpdateOutcome × List IPAddr :=
  match createPathListFromNexthopUpdateMessage body manager cache with
  | (paths, b, none, cache') => (.schedule paths b, cache')
  | (_, _, some _, cache') => (.logFailure, cache')

/-! ## The NHT loop's penalty counter -/

/-- The events the `nexthopTrackingManager.loop` select statement
handles, apart from shutdown: the 8-second decay tick, an incoming
batch on `pathListCh`, and the trigger.  Only these mutate or read the
penalty. -/
inductive NhtEvent where
  | tick
  | batch (paths : PathList)
  | trigger

/-- The effect of one loop iteration on the penalty counter, a Go
`int`: a decay tick halves it (Go `/` on int truncates toward zero, `Int.tdiv`), an
incoming batch adds the fixed step 500, a trigger leaves it unchanged.
(The scheduled-path map and the `isScheduled` flag evolve alongside but
never feed back into the penalty.) -/
def nhtPenaltyStep (penalty : Int) : NhtEvent → Int
  | .tick => Int.tdiv penalty 2
  | .batch _ => penalty + 500
  | .trigger => penalty

/-- The penalty after the loop (which enters with `penalty := 0`)
has processed a sequence of events. -/
def nhtPenaltyRun (events : List NhtEvent) : Int :=
  events.foldl nhtPenaltyStep 0

/-! ## Startup (`newZebraClient`) -/

/-- Split a byte string at its first colon (byte 58), when it has
one. -/
def splitFirstColon : List Nat → Option (List Nat × List Nat)
  | [] => none
  | c :: rest =>
    if c = 58 then some ([], rest)
    else (splitFirstColon rest).map (fun ab => (c :: ab.1, ab.2))

/-- Go `strings.SplitN(url, ":", 2)` on a byte string: split at the
first colon into two parts, or return the whole string as a single
part when it contains none. -/
def splitN2Colon (url : List Nat) : List (List Nat) :=
  match splitFirstColon url with
  | none => [url]
  | some (a, b) => [a, b]

/-- The redistribute-subscription loop of `newZebraClient`: look up
each requested protocol name and fail on the first unknown one
(`zebra.RouteTypeFromString` returns an error).  `routeTypeFromString`
is passed in: the known-name table lives in the zebra package, outside
`src/`; per the spec, unknown protocol names fail the open. -/
def sendRedistributes (routeTypeFromString : List Nat → Option Unit) :
    List (List Nat) → Option Unit
  | [] => some ()
  | t :: rest =>
    match routeTypeFromString t with
    | none => none
    | some () => sendRedistributes routeTypeFromString rest

/-- The observable outcome of `newZebraClient`: whether a client was
returned (`err == nil`) and whether `go w.loop()` was reached. -/
structure ZebraOpenResult where
  ok : Bool
  loopStarted : Bool
deriving DecidableEq, Repr

/-- Go `newZebraClient(s, url, protos, version, nhtEnable, nhtDelay)`:
parse the URL as `scheme:address` (reject input without a colon), open
the client session (`zebra.NewClient`, an external connection attempt
modelled by `connectOK`; the version loop ranges over the single-entry
list `[]uint8{version}`), subscribe interfaces and redistributions, and
only then start the bridge loop. -/
def newZebraClient (url : List Nat) (protos : List (List Nat)) (connectOK : Bool)
    (routeTypeFromString : List Nat → Option Unit) : ZebraOpenResult :=
  if (splitN2Colon url).length ≠ 2 then ⟨false, false⟩
  else if !connectOK then ⟨false, false⟩
  else
    match sendRedistributes routeTypeFromString protos with
    | none => ⟨false, false⟩
    | some () => ⟨true, true⟩

/-! ## Claims about the delay policy (C2, C5) -/

/-- Claim C2, counterexample: `calculateDelay` does not return
`8 + 8·⌈log2(penalty/950)⌉` above the threshold.  With real-number
division, `⌈log2(p/950)⌉ = Nat.clog 2 ⌈p/950⌉ = Nat.clog 2 ((p+949)/950)`:
at `penalty = 1901` the claimed formula gives `8 + 8·2 = 24` while the
code's loop gives 16.  Reading the division as integer division
instead, at `penalty = 1899` the claimed formula gives `8 + 8·0 = 8`
while the code gives 16. -/
theorem claim_C2_counterexample :
    calculateDelay 0 1901 = 16 ∧ Nat.clog 2 ((1901 + 949) / 950) = 2 ∧
    calculateDelay 0 1899 = 16 ∧ Nat.clog 2 (1899 / 950) = 0 := by
  have h950 : halvings 950 = 0 := by rw [halvings, dif_neg (by norm_num)]
  have h949 : halvings 949 = 0 := by rw [halvings, dif_neg (by norm_num)]
  have h1901 : halvings 1901 = 1 := by
    rw [halvings_unfold_pos (by norm_num)]
    show halvings 950 + 1 = 1
    rw [h950]
  have h1899 : halvings 1899 = 1 := by
    rw [halvings_unfold_pos (by norm_num)]
    show halvings 949 + 1 = 1
    rw [h949]
  refine ⟨?_, ?_, ?_, ?_⟩
  · unfold calculateDelay
    rw [if_neg (by norm_num), delayLoop_eq_halvings, h1901]
  · show Nat.clog 2 3 = 2
    rw [Nat.clog_of_two_le (by norm_num) (by norm_num)]
    show Nat.clog 2 2 + 1 = 2
    rw [Nat.clog_of_two_le (by norm_num) (by norm_num)]
    show Nat.clog 2 1 + 1 + 1 = 2
    rw [Nat.clog_one_right]
  · unfold calculateDelay
    rw [if_neg (by norm_num), delayLoop_eq_halvings, h1899]
  · show Nat.clog 2 1 = 0
    exact Nat.clog_one_right 2

/-- Claim C2 (amended): `calculateDelay(penalty)` returns the
configured base delay when `penalty ≤ 950`; otherwise it returns
`8 + 8·k` time units where `k` is the number of loop iterations — the
least number of integer halvings that brings the penalty to at most
950 (equal to `⌈log2((penalty+1)/951)⌉`, not `⌈log2(penalty/950)⌉`). -/
theorem claim_C2_calculateDelay (mdelay penalty : Nat) :
    (penalty ≤ 950 → calculateDelay mdelay penalty = mdelay) ∧
    (950 < penalty →
      ∃ k, calculateDelay mdelay penalty = 8 + 8 * k ∧
        penalty / 2 ^ k ≤ 950 ∧ ∀ j < k, 950 < penalty / 2 ^ j) := by
  constructor
  · intro h
    unfold calculateDelay
    rw [if_pos h]
  · intro h
    refine ⟨halvings penalty, ?_, halvings_le penalty, halvings_min penalty⟩
    unfold calculateDelay
    rw [if_neg (by omega), delayLoop_eq_halvings]

/-- Witness for C2: the base-delay branch at penalty 500 with base 3,
and the loop branch at penalty 1000. -/
theorem claim_C2_witness :
    calculateDelay 3 500 = 3 ∧
    ∃ k, calculateDelay 3 1000 = 8 + 8 * k ∧
      1000 / 2 ^ k ≤ 950 ∧ ∀ j < k, 950 < 1000 / 2 ^ j :=
  ⟨(claim_C2_calculateDelay 3 500).1 (by norm_num),
   (claim_C2_calculateDelay 3 1000).2 (by norm_num)⟩

theorem calculateDelay_mono_penalty (mdelay : Nat) (hm : mdelay ≤ 16) {p q : Nat}
    (hpq : p ≤ q) : calculateDelay mdelay p ≤ calculateDelay mdelay q := by
  unfold calculateDelay
  by_cases hq : q ≤ 950
  · rw [if_pos (by omega), if_pos hq]
  · rw [if_neg hq, delayLoop_eq_halvings q 8]
    by_cases hp : p ≤ 950
    · rw [if_pos hp]
      have := halvings_pos (p := q) (by omega)
      omega
    · rw [if_neg hp, delayLoop_eq_halvings p 8]
      have := halvings_mono hpq
      omega

/-- Claim C5, counterexample: with configured base delay 17, the delay
after one batch (penalty 500) is 17 but after two batches (penalty
1000) it is 16 — the delay is not non-decreasing in the number of
submissions for every configured base delay. -/
theorem claim_C5_counterexample :
    ¬ calculateDelay 17 (500 * 1) ≤ calculateDelay 17 (500 * 2) := by
  show ¬ calculateDelay 17 500 ≤ calculateDelay 17 1000
  have h1 : calculateDelay 17 500 = 17 := by
    unfold calculateDelay
    rw [if_pos (by norm_num)]
  have h2 : calculateDelay 17 1000 = 16 := by
    have h500 : halvings 500 = 0 := by rw [halvings, dif_neg (by norm_num)]
    have h1000 : halvings 1000 = 1 := by
      rw [halvings_unfold_pos (by norm_num)]
      show halvings 500 + 1 = 1
      rw [h500]
    unfold calculateDelay
    rw [if_neg (by norm_num), delayLoop_eq_halvings, h1000]
  omega

/-- Claim C5 (amended): starting from penalty 0 with no decay ticks,
after `k` batch submissions the accumulated penalty is `500·k`, and
`calculateDelay` on it is non-decreasing in `k` for every configured
base delay of at most 16 time units; for a larger base delay the
computed delay drops to 16 when the penalty first crosses the 950
threshold (at `k = 2`). -/
theorem claim_C5_delay_monotone (mdelay : Nat) (hm : mdelay ≤ 16) {k1 k2 : Nat}
    (hk : k1 ≤ k2) :
    calculateDelay mdelay (500 * k1) ≤ calculateDelay mdelay (500 * k2) :=
  calculateDelay_mono_penalty mdelay hm (Nat.mul_le_mul_left 500 hk)

/-- Witness for C5: base delay 16, one versus two submissions. -/
theorem claim_C5_witness :
    calculateDelay 16 (500 * 1) ≤ calculateDelay 16 (500 * 2) :=
  claim_C5_delay_monotone 16 (le_refl 16) (by norm_num)

/-! ## Claim C7: the penalty counter never goes negative -/

theorem nhtPenaltyStep_nonneg {p : Int} (hp : 0 ≤ p) (e : NhtEvent) :
    0 ≤ nhtPenaltyStep p e := by
  cases e with
  | tick =>
    cases p with
    | ofNat n => exact Int.ofNat_nonneg (n / 2)
    | negSucc n => exact absurd hp (by exact Int.not_le.mpr (Int.negSucc_lt_zero n))
  | batch paths =>
    show 0 ≤ p + 500
    omega
  | trigger => exact hp

theorem nhtPenaltyRun_from_nonneg (events : List NhtEvent) :
    ∀ p : Int, 0 ≤ p → 0 ≤ events.foldl nhtPenaltyStep p := by
  induction events with
  | nil => intro p hp; exact hp
  | cons e rest ih =>
    intro p hp
    exact ih (nhtPenaltyStep p e) (nhtPenaltyStep_nonneg hp e)

/-- Claim C7: the penalty counter starts at 0, each incoming batch adds
the fixed step 500, each decay tick halves it by (truncated) integer
division, and no sequence of loop events ever makes it negative. -/
theorem claim_C7_penalty_nonneg (events : List NhtEvent) : 0 ≤ nhtPenaltyRun events :=
  nhtPenaltyRun_from_nonneg events 0 (le_refl 0)

/-! ## Claim C8: startup configuration errors -/

theorem splitFirstColon_eq_none {url : List Nat} (h : ∀ b ∈ url, b ≠ 58) :
    splitFirstColon url = none := by
  induction url with
  | nil => rfl
  | cons c rest ih =>
    unfold splitFirstColon
    rw [if_neg (h c (List.mem_cons_self c rest))]
    rw [ih (fun b hb => h b (List.mem_cons_of_mem c hb))]
    rfl

theorem sendRedistributes_eq_none {rtfs : List Nat → Option Unit}
    {protos : List (List Nat)} (h : ∃ t ∈ protos, rtfs t = none) :
    sendRedistributes rtfs protos = none := by
  induction protos with
  | nil => simp at h
  | cons t rest ih =>
    obtain ⟨u, hu, hnone⟩ := h
    unfold sendRedistributes
    rcases List.mem_cons.mp hu with huh | hut
    · subst huh
      rw [hnone]
    · cases hrt : rtfs t with
      | none => rfl
      | some v =>
        cases v
        exact ih ⟨u, hut, hnone⟩

/-- Claim C8: `newZebraClient` returns an error to its caller — without
reaching `go w.loop()` — for every URL without a colon (which fails the
`scheme:address` split), and, when the connection itself succeeds, for
every requested redistribute protocol whose name is unknown
(`routeTypeFromString` yields nothing). -/
theorem claim_C8_newZebraClient (url : List Nat) (protos : List (List Nat))
    (connectOK : Bool) (rtfs : List Nat → Option Unit) :
    ((∀ b ∈ url, b ≠ 58) →
      newZebraClient url protos connectOK rtfs = ⟨false, false⟩) ∧
    ((∃ t ∈ protos, rtfs t = none) →
      newZebraClient url protos connectOK rtfs = ⟨false, false⟩) := by
  constructor
  · intro h
    unfold newZebraClient splitN2Colon
    rw [splitFirstColon_eq_none h]
    rfl
  · intro h
    unfold newZebraClient
    by_cases hs : (splitN2Colon url).length ≠ 2
    · rw [if_pos hs]
    · rw [if_neg hs]
      cases connectOK with
      | false => rfl
      | true =>
        rw [sendRedistributes_eq_none h]
        rfl

/-- Witness for C8: a colon-free URL, and a URL with a colon together
with an unknown protocol name under a lookup that knows none. -/
theorem claim_C8_witness :
    newZebraClient [97, 98] [] true (fun _ => some ()) = ⟨false, false⟩ ∧
    newZebraClient [97, 58, 98] [[99]] true (fun _ => none) = ⟨false, false⟩ :=
  ⟨(claim_C8_newZebraClient [97, 98] [] true (fun _ => some ())).1 (by decide),
   (claim_C8_newZebraClient [97, 58, 98] [[99]] true (fun _ => none)).2
     ⟨[99], List.mem_singleton.mpr rfl, rfl⟩⟩

/-! ## Claims C6 and C10: nexthop updates -/

/-- Claim C10: `createPathListFromNexthopUpdateMessage` returns a nil
error for every update body, table manager, and cache state, so the
bridge loop's error branch for it (logging a failed path-list build)
can never be taken: the handler always schedules. -/
theorem claim_C10_no_error (body : NexthopUpdateBody) (manager : TableManager)
    (cache : List IPAddr) :
    (createPathListFromNexthopUpdateMessage body manager cache).2.2.1 = none ∧
    (zebraLoopHandleNexthopUpdate body manager cache).1 =
      .schedule (createPathListFromNexthopUpdateMessage body manager cache).1
        (createPathListFromNexthopUpdateMessage body manager cache).2.1 := by
  constructor
  · rfl
  · rfl

/-- Claim C6: every clone returned by
`createPathListFromNexthopUpdateMessage` has `nexthop-invalid = true`
when the update carries no nexthop, and `nexthop-invalid = false` with
MED equal to the update's metric when it carries at least one. -/
theorem claim_C6_nexthop_invalidation (body : NexthopUpdateBody)
    (manager : TableManager) (cache : List IPAddr) :
    ∀ q ∈ (createPathListFromNexthopUpdateMessage body manager cache).1,
      (body.nexthops = [] → q.isNexthopInvalid = true) ∧
      (body.nexthops ≠ [] → q.isNexthopInvalid = false ∧ q.med = some body.metric) := by
  intro q hq
  unfold createPathListFromNexthopUpdateMessage at hq
  simp only [List.mem_map] at hq
  obtain ⟨p, _, hp⟩ := hq
  constructor
  · intro hnil
    rw [← hp]
    simp [hnil]
  · intro hne
    rw [← hp]
    have hlen : ¬ body.nexthops.length = 0 := fun h0 => hne (List.length_eq_zero.mp h0)
    simp [hlen]

/-- A concrete IPv4-unicast path used to instantiate theorems about
the nexthop-update translator. -/
def samplePathC6 : Path :=
  ⟨⟨.ipv4uc, [10, 0, 0, 0], 24, 0⟩, [192, 0, 2, 1], false, false, false, none, 0,
    none, [], ⟨65001, 65000, 0⟩⟩

/-- A table manager whose RIB query returns exactly `samplePathC6`. -/
def sampleManagerC6 : TableManager := ⟨fun _ _ => [samplePathC6]⟩

/-- Witness for C6: an empty update invalidates the clone of a bound
path; a one-nexthop update validates it and copies metric 7 into
MED. -/
theorem claim_C6_witness :
    ({ samplePathC6 with isNexthopInvalid := true } : Path).isNexthopInvalid = true ∧
    ({ samplePathC6 with isNexthopInvalid := false, med := some 7 } : Path).isNexthopInvalid
        = false ∧
    ({ samplePathC6 with isNexthopInvalid := false, med := some 7 } : Path).med = some 7 :=
  ⟨(claim_C6_nexthop_invalidation ⟨2, [192, 0, 2, 1], 7, []⟩ sampleManagerC6 []
      _ (by decide)).1 rfl,
   (claim_C6_nexthop_invalidation ⟨2, [192, 0, 2, 1], 7, [[10, 0, 0, 9]]⟩ sampleManagerC6 []
      _ (by decide)).2 (by decide)⟩

/-! ## Claim C4: nexthop-register builder and withdrawn paths -/

theorem mem_filterPathToRegister_not_withdraw {cache : List IPAddr} {dst : PathList}
    {p : Path} (hp : p ∈ filterPathToRegister cache dst) : p.isWithdraw = false := by
  unfold filterPathToRegister at hp
  simp only [List.mem_filterMap] at hp
  obtain ⟨op, _, hop⟩ := hp
  match op with
  | none => simp at hop
  | some a =>
    by_cases h1 : a.fromExternal
    · simp [h1] at hop
    · by_cases h2 : a.isWithdraw
      · simp [h1, h2] at hop
      · by_cases h3 : a.isNexthopInvalid
        · simp [h1, h2, h3] at hop
        · by_cases h4 : isRegisteredNexthop cache a.nexthop
          · simp [h1, h2, h3, h4] at hop
          · by_cases h5 : ipIsUnspecified a.nexthop
            · simp [h1, h2, h3, h4, h5] at hop
            · simp [h1, h2, h3, h4, h5] at hop
              rw [← hop]
              simpa using h2

/-- Claim C4, counterexample: a batch whose representative (and only)
path is marked withdraw yields no body, but with is-withdraw `false`,
not `true`: the register filter removes withdrawn paths before the
representative is selected, so the builder's withdraw branch never
fires. -/
theorem claim_C4_counterexample :
    (newNexthopRegisterBody
        [some ⟨⟨.ipv4uc, [10, 0, 0, 0], 24, 0⟩, [192, 0, 2, 1], true, false, false,
          none, 0, none, [], ⟨65001, 65000, 0⟩⟩]
        (some [])).1 = none ∧
    (newNexthopRegisterBody
        [some ⟨⟨.ipv4uc, [10, 0, 0, 0], 24, 0⟩, [192, 0, 2, 1], true, false, false,
          none, 0, none, [], ⟨65001, 65000, 0⟩⟩]
        (some [])).2.1 = false := by
  constructor
  · rfl
  · rfl

/-- Claim C4 (amended): with an enabled NHT manager, the builder never
reports is-withdraw `true`: `filterPathToRegister` drops every
withdrawn path before the representative is chosen (making the
explicit withdraw branch dead code), and a batch consisting solely of
withdrawn paths is filtered to nothing, yielding no body with
is-withdraw `false`. -/
theorem claim_C4_register_withdraw (dst : PathList) (cache : List IPAddr) :
    (newNexthopRegisterBody dst (some cache)).2.1 = false ∧
    ((∀ op ∈ dst, ∀ p : Path, op = some p → p.isWithdraw = true) →
      (newNexthopRegisterBody dst (some cache)).1 = none) := by
  constructor
  · cases hf : filterPathToRegister cache dst with
    | nil => simp [newNexthopRegisterBody, hf]
    | cons path rest =>
      have hw : path.isWithdraw = false :=
        mem_filterPathToRegister_not_withdraw (hf ▸ List.mem_cons_self path rest)
      simp only [newNexthopRegisterBody, hf, hw]
      split
      · simp_all
      · split <;> rfl
  · intro hall
    have hf : filterPathToRegister cache dst = [] := by
      unfold filterPathToRegister
      rw [List.filterMap_eq_nil_iff]
      intro op hop
      match op with
      | none => rfl
      | some p =>
        have hw := hall (some p) hop p rfl
        by_cases h1 : p.fromExternal <;> simp [h1, hw]
    simp [newNexthopRegisterBody, hf]

/-- Witness for C4: a singleton batch of one withdrawn path. -/
theorem claim_C4_witness :
    (newNexthopRegisterBody
        [some ⟨⟨.ipv6uc, List.replicate 15 0 ++ [5], 64, 0⟩, List.replicate 15 0 ++ [9],
          true, false, false, none, 0, none, [], ⟨65001, 65000, 0⟩⟩]
        (some [])).2.1 = false ∧
    (newNexthopRegisterBody
        [some ⟨⟨.ipv6uc, List.replicate 15 0 ++ [5], 64, 0⟩, List.replicate 15 0 ++ [9],
          true, false, false, none, 0, none, [], ⟨65001, 65000, 0⟩⟩]
        (some [])).1 = none :=
  ⟨(claim_C4_register_withdraw _ []).1,
   (claim_C4_register_withdraw _ []).2 (by decide)⟩

/-! ## Case analysis of `newIPRouteBody` -/

theorem newIPRouteBody_eq_cases (dst : PathList) (selfW : Bool) (path : Path)
    (rest : List Path) (hf : filterOutExternalPath dst = path :: rest) :
    (routeDispatch (path :: rest) path selfW = none ∧
      newIPRouteBody dst selfW = (none, false)) ∨
    ∃ pre nhs, routeDispatch (path :: rest) path selfW = some (pre, nhs) ∧
      ((path.nlri.plen = 0 ∧ path.nlri.pathLocalId = 0 ∧
          newIPRouteBody dst selfW = (none, false)) ∨
       (path.nlri.plen = 0 ∧ path.nlri.pathLocalId ≠ 0 ∧
          newIPRouteBody dst selfW =
            (some (mkIPRouteBody path pre nhs true path.nlri.pathLocalId),
             path.isWithdraw)) ∨
       (path.nlri.plen ≠ 0 ∧
          newIPRouteBody dst selfW =
            (some (mkIPRouteBody path pre nhs false 0), path.isWithdraw))) := by
  have hun : newIPRouteBody dst selfW =
      match routeDispatch (path :: rest) path selfW with
      | none => (none, false)
      | some (prefixAddr, nexthops) =>
        if path.nlri.plen = 0 then
          if path.nlri.pathLocalId = 0 then (none, false)
          else
            (some (mkIPRouteBody path prefixAddr nexthops true path.nlri.pathLocalId),
             path.isWithdraw)
        else (some (mkIPRouteBody path prefixAddr nexthops false 0), path.isWithdraw) := by
    unfold newIPRouteBody
    rw [hf]
  cases hd : routeDispatch (path :: rest) path selfW with
  | none =>
    left
    refine ⟨rfl, ?_⟩
    rw [hun, hd]
  | some pn =>
    right
    obtain ⟨pre, nhs⟩ := pn
    refine ⟨pre, nhs, rfl, ?_⟩
    have heq : newIPRouteBody dst selfW =
        (if path.nlri.plen = 0 then
          if path.nlri.pathLocalId = 0 then (none, false)
          else
            (some (mkIPRouteBody path pre nhs true path.nlri.pathLocalId),
             path.isWithdraw)
        else (some (mkIPRouteBody path pre nhs false 0), path.isWithdraw)) := by
      rw [hun, hd]
    by_cases h0 : path.nlri.plen = 0
    · by_cases hid : path.nlri.pathLocalId = 0
      · exact Or.inl ⟨h0, hid, by rw [heq, if_pos h0, if_pos hid]⟩
      · exact Or.inr (Or.inl ⟨h0, hid, by rw [heq, if_pos h0, if_neg hid]⟩)
    · exact Or.inr (Or.inr ⟨h0, by rw [heq, if_neg h0]⟩)

/-! ## Claim C3: self-withdraw encoding -/

/-- Claim C3, counterexample: calling `newIPRouteBody` with
self-route-withdraw on a batch whose (non-withdrawn, local) IPv4
representative is not marked withdraw yields a message, but the
returned is-withdraw flag is `false`, not `true` — the translator
returns the representative's own withdraw flag, and only its caller in
the bridge loop forces the flag to true before sending. -/
theorem claim_C3_counterexample :
    (newIPRouteBody
        [some ⟨⟨.ipv4uc, [10, 0, 0, 0], 24, 0⟩, [192, 0, 2, 1], false, false, false,
          none, 0, none, [], ⟨65001, 65000, 0⟩⟩]
        true).1.isSome = true ∧
    (newIPRouteBody
        [some ⟨⟨.ipv4uc, [10, 0, 0, 0], 24, 0⟩, [192, 0, 2, 1], false, false, false,
          none, 0, none, [], ⟨65001, 65000, 0⟩⟩]
        true).2 = false := by
  constructor
  · rfl
  · rfl

/-- Claim C3 (amended): whenever `newIPRouteBody` with
self-route-withdraw emits a message, every nexthop in it is
`127.0.0.1` when the representative's family is IPv4 unicast/VPN, and
`::1` when it is IPv6 unicast/VPN; the is-withdraw returned alongside
equals the representative's own withdraw flag (the bridge-loop caller,
not the translator, forces it to true when sending). -/
theorem claim_C3_self_withdraw (dst : PathList)
    (h : (newIPRouteBody dst true).1.isSome = true) :
    ∃ path rest, filterOutExternalPath dst = path :: rest ∧
      (newIPRouteBody dst true).2 = path.isWithdraw ∧
      ((path.getRouteFamily = .ipv4uc ∨ path.getRouteFamily = .ipv4vpn) →
        ∀ body ∈ (newIPRouteBody dst true).1,
          ∀ nh ∈ body.nexthops, nh = [127, 0, 0, 1]) ∧
      ((path.getRouteFamily = .ipv6uc ∨ path.getRouteFamily = .ipv6vpn) →
        ∀ body ∈ (newIPRouteBody dst true).1,
          ∀ nh ∈ body.nexthops, nh = parsedLoopback6) := by
  cases hf : filterOutExternalPath dst with
  | nil =>
    exfalso
    have hres : newIPRouteBody dst true = (none, false) := by
      unfold newIPRouteBody
      rw [hf]
    rw [hres] at h
    simp at h
  | cons path rest =>
    refine ⟨path, rest, rfl, ?_⟩
    rcases newIPRouteBody_eq_cases dst true path rest hf with ⟨hd, hres⟩ |
      ⟨pre, nhs, hd, hcase⟩
    · rw [hres] at h
      simp at h
    · have key : (newIPRouteBody dst true).2 = path.isWithdraw ∧
          ∀ body ∈ (newIPRouteBody dst true).1, body.nexthops = nhs := by
        rcases hcase with ⟨_, _, hres⟩ | ⟨_, _, hres⟩ | ⟨_, hres⟩
        · rw [hres] at h
          simp at h
        · rw [hres]
          refine ⟨rfl, ?_⟩
          intro body hb
          simp only [Option.mem_def, Option.some.injEq] at hb
          rw [← hb]
          rfl
        · rw [hres]
          refine ⟨rfl, ?_⟩
          intro body hb
          simp only [Option.mem_def, Option.some.injEq] at hb
          rw [← hb]
          rfl
      refine ⟨key.1, ?_, ?_⟩
      · intro hfam body hb nh hnh
        rw [key.2 body hb] at hnh
        unfold routeDispatch at hd
        rcases hfam with hfam | hfam <;>
          rw [hfam] at hd <;>
          simp only [Option.some.injEq, Prod.mk.injEq] at hd <;>
          · rw [← hd.2] at hnh
            simp only [List.mem_filterMap] at hnh
            obtain ⟨a, -, ha⟩ := hnh
            rw [if_pos trivial] at ha
            have hlb : ipTo4 parsedLoopback4 = some [127, 0, 0, 1] := by decide
            rw [hlb] at ha
            exact (Option.some.inj ha).symm
      · intro hfam body hb nh hnh
        rw [key.2 body hb] at hnh
        unfold routeDispatch at hd
        rcases hfam with hfam | hfam <;>
          rw [hfam] at hd <;>
          simp only [Option.some.injEq, Prod.mk.injEq] at hd <;>
          · rw [← hd.2] at hnh
            simp only [List.mem_filterMap] at hnh
            obtain ⟨a, -, ha⟩ := hnh
            rw [if_pos trivial] at ha
            have hlb : ipTo16 parsedLoopback6 = some parsedLoopback6 := by decide
            rw [hlb] at ha
            exact (Option.some.inj ha).symm

/-- A non-withdrawn local IPv4-unicast path used to instantiate the
self-withdraw theorem. -/
def sampleSelfPath : Path :=
  ⟨⟨.ipv4uc, [172, 16, 0, 0], 12, 0⟩, [192, 0, 2, 7], false, false, false, none, 0,
    none, [], ⟨65000, 65000, 0⟩⟩

/-- Witness for C3: a singleton IPv4 batch under self-route-withdraw
emits a message; the theorem instantiates at it. -/
theorem claim_C3_witness :
    ∃ path rest, filterOutExternalPath [some sampleSelfPath] = path :: rest ∧
      (newIPRouteBody [some sampleSelfPath] true).2 = path.isWithdraw ∧
      ((path.getRouteFamily = .ipv4uc ∨ path.getRouteFamily = .ipv4vpn) →
        ∀ body ∈ (newIPRouteBody [some sampleSelfPath] true).1,
          ∀ nh ∈ body.nexthops, nh = [127, 0, 0, 1]) ∧
      ((path.getRouteFamily = .ipv6uc ∨ path.getRouteFamily = .ipv6vpn) →
        ∀ body ∈ (newIPRouteBody [some sampleSelfPath] true).1,
          ∀ nh ∈ body.nexthops, nh = parsedLoopback6) :=
  claim_C3_self_withdraw [some sampleSelfPath] (by decide)

/-! ## Claim C9: inexpressible nexthops are silently omitted -/

/-- The per-family nexthop width conversion `newIPRouteBody` applies
with self-route-withdraw off: `To4` for the IPv4 families, `To16` for
the IPv6 families. -/
def famNexthopWidth (family : RouteFamily) (nexthop : IPAddr) : Option IPAddr :=
  match family with
  | .ipv4uc | .ipv4vpn => ipTo4 nexthop
  | .ipv6uc | .ipv6vpn => ipTo16 nexthop
  | .other => none

theorem routeDispatch_no_self (path : Path) (rest : List Path)
    (hfam : path.getRouteFamily ≠ .other) :
    ∃ pre, routeDispatch (path :: rest) path false =
      some (pre, (path :: rest).filterMap
        (fun p => famNexthopWidth path.getRouteFamily p.nexthop)) := by
  cases hfamv : path.getRouteFamily with
  | ipv4uc =>
    refine ⟨(ipTo4 path.nlri.prefixAddr).getD [], ?_⟩
    unfold routeDispatch
    rw [hfamv]
    rfl
  | ipv4vpn =>
    refine ⟨(ipTo4 path.nlri.prefixAddr).getD [], ?_⟩
    unfold routeDispatch
    rw [hfamv]
    rfl
  | ipv6uc =>
    refine ⟨(ipTo16 path.nlri.prefixAddr).getD [], ?_⟩
    unfold routeDispatch
    rw [hfamv]
    rfl
  | ipv6vpn =>
    refine ⟨(ipTo16 path.nlri.prefixAddr).getD [], ?_⟩
    unfold routeDispatch
    rw [hfamv]
    rfl
  | other => exact absurd hfamv hfam

/-- Claim C9, counterexample: a single-path IPv4-unicast batch whose
nexthop is a genuine IPv6 address (so `To4` gives nil and the nexthop
is omitted) and whose NLRI is a default route with a zero path-local
identifier yields NO message at all — not a message with the
has-nexthop flag unset. -/
theorem claim_C9_counterexample :
    ipTo4 [32, 1, 13, 184, 0, 0, 0, 0, 0, 0, 0, 0, 0, 0, 0, 1] = none ∧
    newIPRouteBody
        [some ⟨⟨.ipv4uc, [0, 0, 0, 0], 0, 0⟩,
          [32, 1, 13, 184, 0, 0, 0, 0, 0, 0, 0, 0, 0, 0, 0, 1], false, false, false,
          none, 0, none, [], ⟨65001, 65000, 0⟩⟩]
        false = (none, false) := by
  constructor
  · rfl
  · rfl

/-- Claim C9 (amended): with self-route-withdraw off, the emitted
nexthop list is exactly the width-convertible nexthops of the batch, in
order — paths whose nexthop cannot be expressed in the representative
family's width are silently omitted; when every nexthop is omitted this
way a message is still returned with its has-nexthop flag unset and an
empty nexthop list, unless the representative is a default route
(prefix length 0) with a zero path-local identifier, in which case no
message is returned. -/
theorem claim_C9_nexthop_omission (dst : PathList) (path : Path) (rest : List Path)
    (hf : filterOutExternalPath dst = path :: rest)
    (hfam : path.getRouteFamily ≠ .other) :
    (∀ body ∈ (newIPRouteBody dst false).1,
      body.nexthops =
        (path :: rest).filterMap (fun p => famNexthopWidth path.getRouteFamily p.nexthop)) ∧
    ((∀ p ∈ path :: rest, famNexthopWidth path.getRouteFamily p.nexthop = none) →
      (path.nlri.plen ≠ 0 ∨ path.nlri.pathLocalId ≠ 0) →
      ∃ body, newIPRouteBody dst false = (some body, path.isWithdraw) ∧
        body.message.nexthop = false ∧ body.nexthops = []) := by
  obtain ⟨pre, hdisp⟩ := routeDispatch_no_self path rest hfam
  rcases newIPRouteBody_eq_cases dst false path rest hf with ⟨hd, hres⟩ |
    ⟨pre', nhs, hd, hcase⟩
  · rw [hdisp] at hd
    cases hd
  · rw [hdisp] at hd
    have hnhs : (path :: rest).filterMap
        (fun p => famNexthopWidth path.getRouteFamily p.nexthop) = nhs := by
      have := (Prod.mk.injEq _ _ _ _).mp (Option.some.inj hd)
      exact this.2
    constructor
    · intro body hb
      rcases hcase with ⟨_, _, hres⟩ | ⟨_, _, hres⟩ | ⟨_, hres⟩
      · rw [hres] at hb
        simp at hb
      · rw [hres] at hb
        simp only [Option.mem_def, Option.some.injEq] at hb
        rw [← hb, hnhs]
        rfl
      · rw [hres] at hb
        simp only [Option.mem_def, Option.some.injEq] at hb
        rw [← hb, hnhs]
        rfl
    · intro hall hplen
      have hnil : nhs = [] := by
        rw [← hnhs]
        exact List.filterMap_eq_nil_iff.mpr hall
      rcases hcase with ⟨h0, hid, _⟩ | ⟨h0, hid, hres⟩ | ⟨h0, hres⟩
      · rcases hplen with hplen | hplen
        · exact absurd h0 hplen
        · exact absurd hid hplen
      · refine ⟨mkIPRouteBody path pre' nhs true path.nlri.pathLocalId, hres, ?_, ?_⟩
        · show decide (0 < nhs.length) = false
          rw [hnil]
          rfl
        · show nhs = []
          exact hnil
      · refine ⟨mkIPRouteBody path pre' nhs false 0, hres, ?_, ?_⟩
        · show decide (0 < nhs.length) = false
          rw [hnil]
          rfl
        · show nhs = []
          exact hnil

/-- An IPv4-unicast path with an IPv6-only nexthop and a non-default
prefix, used to instantiate the omission theorem. -/
def sampleOmitPath : Path :=
  ⟨⟨.ipv4uc, [10, 1, 0, 0], 16, 0⟩,
    [32, 1, 13, 184, 0, 0, 0, 0, 0, 0, 0, 0, 0, 0, 0, 2], false, false, false,
    none, 0, none, [], ⟨65001, 65000, 0⟩⟩

/-- Witness for C9: the single inexpressible nexthop is omitted, and a
message with the has-nexthop flag unset is still emitted for the
non-default route. -/
theorem claim_C9_witness :
    ∃ body, newIPRouteBody [some sampleOmitPath] false = (some body, sampleOmitPath.isWithdraw) ∧
      body.message.nexthop = false ∧ body.nexthops = [] :=
  (claim_C9_nexthop_omission [some sampleOmitPath] sampleOmitPath [] (by decide)
      (by decide)).2 (by decide) (by decide)

/-! ## Claim C1: ingress/egress round trip -/

theorem ipEqual_refl (x : IPAddr) : ipEqual x x = true := by
  unfold ipEqual
  exact beq_self_eq_true _

theorem ipTo4_v4mapped {x : IPAddr} (h4 : x.length = 4) :
    ipTo4 (v4InV6Pfx ++ x) = some x := by
  have h12 : v4InV6Pfx.length = 12 := rfl
  have hlen : (v4InV6Pfx ++ x).length = 16 := by simp [v4InV6Pfx, h4]
  have htake : (v4InV6Pfx ++ x).take 12 = v4InV6Pfx := by
    rw [← h12]
    exact List.take_left v4InV6Pfx x
  have hdrop : (v4InV6Pfx ++ x).drop 12 = x := by
    rw [← h12]
    exact List.drop_left v4InV6Pfx x
  unfold ipTo4
  rw [if_neg (by simp [hlen]), if_pos (by simp [hlen, htake]), hdrop]

/-- The textual round trip `ParseIP(ip.String())` is semantically equal
to the original address for every valid (4- or 16-byte) address. -/
theorem ipEqual_parseIPString {x : IPAddr} (h : x.length = 4 ∨ x.length = 16) :
    ipEqual (parseIPString x) x = true := by
  rcases h with h4 | h16
  · have hps : parseIPString x = v4InV6Pfx ++ x := by
      unfold parseIPString ipTo16
      rw [if_pos h4]
      rfl
    rw [hps]
    unfold ipEqual ipKey
    rw [ipTo4_v4mapped h4]
    unfold ipTo4
    rw [if_pos h4]
    exact beq_self_eq_true _
  · have hps : parseIPString x = x := by
      unfold parseIPString ipTo16
      rw [if_neg (by omega), if_pos h16]
      rfl
    rw [hps]
    exact ipEqual_refl x

/-- Claim C1, counterexample: an IPv4-unicast route message with one
nexthop is translated by ingress into a path (marked from-external),
but passing that single-path batch through the egress translator
yields NO route message at all — `filterOutExternalPath` drops the
externally-sourced path — rather than a message with the same prefix,
prefix length, and first nexthop. -/
theorem claim_C1_counterexample :
    (createPathFromIPRouteMessage
        ⟨.ipv4uc, false, [10, 0, 0, 0], 24, [[192, 0, 2, 1]], 0⟩).isSome = true ∧
    newIPRouteBody
        [createPathFromIPRouteMessage
          ⟨.ipv4uc, false, [10, 0, 0, 0], 24, [[192, 0, 2, 1]], 0⟩]
        false = (none, false) := by
  constructor
  · rfl
  · rfl

/-- Claim C1 (amended): for an IPv4- or IPv6-unicast route message
with at least one (valid-width) nexthop, the ingress translator builds
a path that preserves the prefix (up to v4-mapped equivalence), the
prefix length, and the first nexthop, mirrors the withdraw flag, and
is marked from-external; because of that marker the egress translator
filters the path out, so the round trip yields no message instead of
an equivalent one. -/
theorem claim_C1_roundtrip (m : ZIPRouteMessage)
    (hfam : m.family = .ipv4uc ∨ m.family = .ipv6uc)
    (hpre : m.prefixAddr.length = 4 ∨ m.prefixAddr.length = 16)
    (hnh : ∃ nh0 nrest, m.nexthops = nh0 :: nrest ∧ (nh0.length = 4 ∨ nh0.length = 16)) :
    ∃ p, createPathFromIPRouteMessage m = some p ∧
      p.fromExternal = true ∧
      p.isWithdraw = m.isWithdraw ∧
      ipEqual p.nlri.prefixAddr m.prefixAddr = true ∧
      p.nlri.plen = m.prefixLength ∧
      (∀ nh0, m.nexthops.head? = some nh0 → ipEqual p.nexthop nh0 = true) ∧
      newIPRouteBody [some p] false = (none, false) := by
  obtain ⟨nh0, nrest, hnhs, hnh0⟩ := hnh
  rcases hfam with hfam | hfam
  · refine ⟨{ nlri := ⟨.ipv4uc, parseIPString m.prefixAddr, m.prefixLength, 0⟩
              nexthop := parseIPString nh0
              isWithdraw := m.isWithdraw
              isNexthopInvalid := false
              fromExternal := true
              med := some m.metric
              aspathLen := 0
              aspathSer := none
              communities := []
              source := ⟨0, 0, 0⟩ }, ?_, rfl, rfl, ipEqual_parseIPString hpre, rfl, ?_, rfl⟩
    · unfold createPathFromIPRouteMessage
      rw [hfam, hnhs]
    · intro nh0' hh
      rw [hnhs] at hh
      simp only [List.head?_cons, Option.some.injEq] at hh
      rw [← hh]
      exact ipEqual_parseIPString hnh0
  · refine ⟨{ nlri := ⟨.ipv6uc, parseIPString m.prefixAddr, m.prefixLength, 0⟩
              nexthop := parseIPString nh0
              isWithdraw := m.isWithdraw
              isNexthopInvalid := false
              fromExternal := true
              med := some m.metric
              aspathLen := 0
              aspathSer := none
              communities := []
              source := ⟨0, 0, 0⟩ }, ?_, rfl, rfl, ipEqual_parseIPString hpre, rfl, ?_, rfl⟩
    · unfold createPathFromIPRouteMessage
      rw [hfam, hnhs]
    · intro nh0' hh
      rw [hnhs] at hh
      simp only [List.head?_cons, Option.some.injEq] at hh
      rw [← hh]
      exact ipEqual_parseIPString hnh0

/-- The IPv6-unicast route message used to instantiate the round-trip
theorem. -/
def sampleRouteMsg : ZIPRouteMessage :=
  ⟨.ipv6uc, false, [32, 1, 13, 184, 0, 0, 0, 0, 0, 0, 0, 0, 0, 0, 0, 0], 64,
    [[254, 128, 0, 0, 0, 0, 0, 0, 0, 0, 0, 0, 0, 0, 0, 9]], 3⟩

/-- Witness for C1: the amended round-trip statement at a concrete
IPv6-unicast message. -/
theorem claim_C1_witness :
    ∃ p, createPathFromIPRouteMessage sampleRouteMsg = some p ∧
      p.fromExternal = true ∧
      p.isWithdraw = sampleRouteMsg.isWithdraw ∧
      ipEqual p.nlri.prefixAddr sampleRouteMsg.prefixAddr = true ∧
      p.nlri.plen = sampleRouteMsg.prefixLength ∧
      (∀ nh0, sampleRouteMsg.nexthops.head? = some nh0 → ipEqual p.nexthop nh0 = true) ∧
      newIPRouteBody [some p] false = (none, false) :=
  claim_C1_roundtrip sampleRouteMsg (Or.inr rfl) (Or.inr rfl)
    ⟨[254, 128, 0, 0, 0, 0, 0, 0, 0, 0, 0, 0, 0, 0, 0, 9], [], rfl, Or.inr rfl⟩

end ZClient
